import Mathlib

/-!
Verification of the fc-search search-and-indexing core.

The definitions below are a shallow embedding of the Rust sources:
  * `src/lib.rs`     — `Html`, `NaiveNixosOption`, `Flake`, `FlakeRev`
  * `src/nix.rs`     — `NixPackage`, `Plurality`, `License`
  * `src/search/mod.rs`      — `GenericSearcher`, `search_entries`,
    `ChannelSearcher`, `update`, `update_file_cache`
  * `src/search/options.rs`  — `parse_query`, `update_entries`, `scorer`
  * `src/search/packages.rs` — `parse_query`, `update_entries`, `scorer`

Tantivy (the full-text indexing primitive) is an external dependency; it is
modelled by a query AST mirroring exactly the combinators the sources build
(`TQuery`), an abstract base-relevance oracle (`BaseScore`) standing for
tantivy's internal text scoring, and an executable model of the
`TopDocs::with_limit(..).and_offset(..).tweak_score(..)` collector
(descending stable sort on the tweaked `(f32, f32)` key, lexicographic,
then offset and limit).  Scores are modelled as rationals: every numeric
literal in the sources is a decimal literal, represented exactly.
-/

namespace FcSearch

/-- Embeds `Html` from `src/lib.rs`: a pre-rendered rich-text string. -/
structure Html where
  val : String
  deriving DecidableEq, Repr

/-- Embeds `NaiveNixosOption` from `src/lib.rs`. -/
structure NaiveNixosOption where
  name : String
  declarations : List Html
  description : Html
  default : Html
  «example» : Html
  option_type : String
  read_only : Bool
  deriving DecidableEq, Repr

/-- Embeds `License` from `src/nix.rs` (`Url` is modelled as a string). -/
inductive License where
  | verbatim (s : String)
  | informative (free : Option Bool) (full_name : Option String)
      (redistributable : Option Bool) (short_name : Option String)
      (spdx_id : Option String) (url : Option String)
  deriving DecidableEq, Repr

/-- Embeds `Plurality` from `src/nix.rs`. -/
inductive Plurality (T : Type) where
  | none
  | single (t : T)
  | multiple (ts : List T)
  | fallback (s : String)
  deriving DecidableEq, Repr

/-- Embeds `NixPackage` from `src/nix.rs`. -/
structure NixPackage where
  attribute_name : String
  default_output : String
  description : Option String
  long_description : Option String
  license : Plurality License
  name : String
  outputs : List String
  version : Option String
  homepage : Plurality String
  deriving DecidableEq, Repr

/-- Embeds `FlakeRev` from `src/lib.rs`. -/
inductive FlakeRev where
  | specific (rev : String)
  | latest
  | fallbackToCached
  deriving DecidableEq, Repr

/-- Embeds `Flake` from `src/lib.rs`. -/
structure Flake where
  owner : String
  name : String
  branch : String
  rev : FlakeRev
  deriving DecidableEq, Repr

/-! ## Model of the tantivy query combinators used by the sources -/

/-- Scores: the sources use `f32` decimal literals; modelled exactly in `ℚ`. -/
abbrev Score := ℚ

/-- Embeds `tantivy::query::Occur`; the sources only ever use `Should`. -/
inductive Occur where
  | should
  | must
  | mustNot
  deriving DecidableEq, Repr

/-- The tantivy query AST, restricted to exactly the combinators built by
`options.rs` and `packages.rs` `parse_query`:
`TermQuery`, `FuzzyTermQuery::new_prefix` (`fuzzyPre`), `FuzzyTermQuery::new`
(`fuzzy`), `PhraseQuery`, `RegexQuery`, `BoostQuery`, `ConstScoreQuery`,
`BooleanQuery`. -/
inductive TQuery where
  | term (field : String) (text : String)
  | fuzzyPre (field : String) (text : String) (distance : Nat) (transpose : Bool)
  | fuzzy (field : String) (text : String) (distance : Nat) (transpose : Bool)
  | phrase (field : String) (terms : List String)
  | regex (field : String) (pattern : String)
  | boost (q : TQuery) (factor : Score)
  | constScore (q : TQuery) (value : Score)
  | boolean (clauses : List (Occur × TQuery))

/-- Top-level clause list of a query (the sources always return a
`BooleanQuery` of sub-clauses from `parse_query`). -/
def TQuery.clausesOf : TQuery → List (Occur × TQuery)
  | TQuery.boolean cs => cs
  | _ => []

/-- Recognizes the clauses built from `RegexQuery::from_pattern` in
`packages.rs` (always wrapped in a `BoostQuery`). -/
def isRegexClause : TQuery → Bool
  | TQuery.boost (TQuery.regex _ _) _ => true
  | _ => false

/-- A document as stored in the index: the stored `attribute_name` primary-key
field plus the indexed `name` and `description` fields (the options facet
field is never read back and never scored by the model's oracle inputs). -/
structure Doc where
  attribute_name : String
  name : String
  description : String
  deriving DecidableEq, Repr

/-- Abstract stand-in for tantivy's internal text relevance: given the query
and a document, `none` means "no match", `some s` a base score.  All
structural theorems below hold for every such oracle. -/
abbrev BaseScore := TQuery → Doc → Option Score

/-- Strict lexicographic comparison on the tweaked `(Score, Score)` key, as
`PartialOrd` on a Rust 2-tuple orders the collector's keys. -/
def keyLt (a b : Score × Score) : Bool :=
  a.1 < b.1 || (a.1 == b.1 && a.2 < b.2)

/-- Insert one scored document into a descending-ordered list; ties keep the
earlier (lower doc address) element first, as tantivy's collector does. -/
def insertRanked (x : (Score × Score) × Doc) :
    List ((Score × Score) × Doc) → List ((Score × Score) × Doc)
  | [] => [x]
  | y :: ys => if keyLt y.1 x.1 then x :: y :: ys else y :: insertRanked x ys

/-- Rank matched documents by tweaked key, descending, stably. -/
def rankDocs : List ((Score × Score) × Doc) → List ((Score × Score) × Doc)
  | [] => []
  | x :: xs => insertRanked x (rankDocs xs)

/-- The offset computed in `search_entries` (`src/search/mod.rs`):
`(page.max(1) - 1) as usize * n_items as usize`. -/
def pageOffset (page nItems : Nat) : Nat :=
  (page.max 1 - 1) * nItems

/-- Model of `searcher.search(&query, &collector)` succeeding with the
`TopDocs::with_limit(limit).and_offset(offsetN).tweak_score(tweak)`
collector: score every matching document, rank descending, skip `offsetN`
rows, return at most `limit` rows. -/
def searchCollect (bs : BaseScore) (tq : TQuery)
    (tweak : Doc → Score → Score × Score) (docs : List Doc)
    (limit offsetN : Nat) : List ((Score × Score) × Doc) :=
  ((rankDocs (docs.filterMap fun d =>
      (bs tq d).map fun sc => (tweak d sc, d))).drop offsetN).take limit

/-- Look every collected row's stored primary key up in the in-memory map;
a missing key is the `expect("found option is not indexed")` panic,
modelled as `none`. -/
def lookupAll {Item : Type} (map : List (String × Item)) :
    List ((Score × Score) × Doc) → Option (List Item)
  | [] => some []
  | sd :: rest =>
    match map.lookup sd.2.attribute_name with
    | none => none
    | some v => (lookupAll map rest).map fun vs => v :: vs

/-- Model of the result-processing tail of `search_entries`
(`src/search/mod.rs` lines 259–284): a failed search (`results.ok()` is
`None`) degrades to the empty list via `unwrap_or_default`; on success each
row's stored primary key is looked up in the in-memory map. -/
def processResults {Item : Type} (map : List (String × Item))
    (res : Except String (List ((Score × Score) × Doc))) :
    Option (List Item) :=
  match res with
  | Except.error _ => some []
  | Except.ok topDocs => lookupAll map topDocs

/-- Embeds `GenericSearcher` state from `src/search/mod.rs`: the in-memory
`identifier -> record` map and the indexed documents (index path, schema and
reader handles carry no observable search state beyond the documents). -/
structure GenericSearcher (Item : Type) where
  map : List (String × Item)
  docs : List Doc
  deriving DecidableEq, Repr

/-- Embeds `GenericSearcher::search_entries` (`src/search/mod.rs` lines 247–285),
generic over the per-record-type `parse_query` and `scorer`:
collector limit `n_items + 1`, offset `(page.max(1) - 1) * n_items`,
rows mapped back through the record map.  `none` models the panic on a
matched identifier missing from the map. -/
def searchEntriesWith {Item : Type} (parseQ : String → TQuery)
    (tweak : Doc → Score → Score × Score) (bs : BaseScore)
    (s : GenericSearcher Item) (query : String) (nItems page : Nat) :
    Option (List Item) :=
  processResults s.map (Except.ok
    (searchCollect bs (parseQ query) tweak s.docs (nItems + 1)
      (pageOffset page nItems)))

/-! ## Options searcher (`src/search/options.rs`) -/

/-- Char-list prefix test (helper for the string predicates below). -/
def charsStartWith : List Char → List Char → Bool
  | [], _ => true
  | _ :: _, [] => false
  | p :: ps, c :: cs => p == c && charsStartWith ps cs

/-- Char-list infix test (helper for `strContains`). -/
def charsContain (pat : List Char) : List Char → Bool
  | [] => pat.isEmpty
  | c :: cs => charsStartWith pat (c :: cs) || charsContain pat cs

/-- Substring test, modelling Rust `str::contains` with a string pattern. -/
def strContains (s pat : String) : Bool :=
  charsContain pat.data s.data

/-- Rust `str::starts_with` with a string pattern. -/
def strStartsWith (s pat : String) : Bool :=
  charsStartWith pat.data s.data

/-- Rust `str::ends_with` with a string pattern. -/
def strEndsWith (s pat : String) : Bool :=
  charsStartWith pat.data.reverse s.data.reverse

/-- Split a char list at every occurrence of `sep`, keeping empty pieces —
the semantics of Rust `str::split` with a char pattern. -/
def charSplit (sep : Char) : List Char → List (List Char)
  | [] => [[]]
  | c :: cs =>
    let rest := charSplit sep cs
    if c == sep then [] :: rest
    else
      match rest with
      | [] => [[c]]
      | r :: rs => (c :: r) :: rs

/-- Rust `str::split` with a char pattern (`"".split(c)` yields `[""]`,
adjacent separators yield empty pieces). -/
def strSplit (s : String) (sep : Char) : List String :=
  (charSplit sep s.data).map String.mk

/-- Rust `str::replace('.', " ")` as used to derive the tokenized name. -/
def dotsToSpaces (s : String) : String :=
  String.mk (s.data.map fun c => if c == '.' then ' ' else c)

/-- UTF-8 byte size of a char list (helper for `strByteLen`). -/
def utf8Len : List Char → Nat
  | [] => 0
  | c :: cs => c.utf8Size + utf8Len cs

/-- Rust `str::len`: the UTF-8 byte length. -/
def strByteLen (s : String) : Nat :=
  utf8Len s.data

/-- Rust `Ord::clamp`: `x.clamp(lo, hi)`. -/
def natClamp (x lo hi : Nat) : Nat :=
  if x < lo then lo else if hi < x then hi else x

/-- The positional decay `length_loss = 1. - i as f32 / 10.` used by both
`parse_query` implementations for the `i`-th query term. -/
def optionDecay (i : Nat) : Score :=
  1 - (i : Score) / 10

/-- The name-field clauses `options.rs` `parse_query` pushes for the term
`word` at position `i`: a phrase clause plus an OR of distance-0 fuzzy
prefix clauses for dotted terms, an exact term clause otherwise, and always
the fixed-boost fuzzy prefix clause with edit distance
`word.len().clamp(2, 4) - 2`. -/
def optionNameClauses (i : Nat) (word : String) : List (Occur × TQuery) :=
  let length_loss := optionDecay i
  (if word.data.contains '.' then
    [(Occur.should,
      TQuery.boost (TQuery.phrase "name" (strSplit word '.')) (1.5 * length_loss)),
     (Occur.should,
      TQuery.boost
        (TQuery.boolean ((strSplit word '.').map fun t =>
          (Occur.should, TQuery.fuzzyPre "name" t 0 false)))
        (3 * length_loss))]
  else
    [(Occur.should,
      TQuery.boost (TQuery.term "name" word) (1.5 * length_loss))])
  ++ [(Occur.should,
       TQuery.boost
         (TQuery.fuzzyPre "name" word (natClamp (strByteLen word) 2 4 - 2) true)
         2.2)]

/-- The description-field clauses `options.rs` `parse_query` pushes for the
term `word` at position `i`. -/
def optionDescClauses (i : Nat) (word : String) : List (Occur × TQuery) :=
  let length_loss : Score := 0.5 - (i : Score) / 10
  [(Occur.should,
    TQuery.constScore (TQuery.term "description" word) length_loss)]
  ++ (if 3 ≤ strByteLen word then
        [(Occur.should,
          TQuery.constScore (TQuery.fuzzyPre "description" word 1 false)
            (0.5 * length_loss))]
      else [])

/-- Embeds `parse_query` for options (`src/search/options.rs` lines 16–110): the
query string is split on spaces; each term contributes its name-field
clauses; the description clauses are wrapped in one outer boost of `0.2`. -/
def optionsParseQuery (query_string : String) : TQuery :=
  let words := strSplit query_string ' '
  TQuery.boolean
    ((words.enum.flatMap fun iw => optionNameClauses iw.1 iw.2)
      ++ [(Occur.should,
           TQuery.boost
             (TQuery.boolean (words.enum.flatMap fun iw => optionDescClauses iw.1 iw.2))
             0.2)])

/-- Embeds `scorer` for options (`src/search/options.rs` lines 182–213): the
document's stored identifier (its first stored field) drives three
multiplicative adjustments applied in sequence; the tie-break component is
the constant `1.0`. -/
def optionsScorer (d : Doc) (score : Score) : Score × Score :=
  let fcio_option := strStartsWith d.attribute_name "flyingcircus"
  let enable_option := strEndsWith d.attribute_name "enable"
  let roles_option := strContains d.attribute_name "roles"
  let score1 := if fcio_option then score * 1.3 else score
  let score2 := if enable_option then score1 * 1.05 else score1
  let score3 := if roles_option then score2 * 0.8 else score2
  (score3, 1.0)

/-- The document `update_entries` for options adds for one map entry:
`attribute_name` is the key, `name` is the key with `'.'` replaced by
spaces, `description` the record's rendered description. -/
def optionDoc (kv : String × NaiveNixosOption) : Doc :=
  { attribute_name := kv.1
    name := dotsToSpaces kv.1
    description := kv.2.description.val }

/-- Embeds `update_entries` for options (`src/search/options.rs` lines 142–180):
all existing documents are deleted, one document per entry is added and
committed, the map is replaced by the new entries, the reader reloaded. -/
def optionsUpdateEntries (s : GenericSearcher NaiveNixosOption)
    (entries : List (String × NaiveNixosOption)) :
    GenericSearcher NaiveNixosOption :=
  { s with map := entries, docs := entries.map optionDoc }

/-- Embeds `search_entries` instantiated for the options searcher. -/
def optionsSearchEntries? (bs : BaseScore)
    (s : GenericSearcher NaiveNixosOption) (query : String)
    (nItems page : Nat) : Option (List NaiveNixosOption) :=
  searchEntriesWith optionsParseQuery optionsScorer bs s query nItems page

/-! ## Packages searcher (`src/search/packages.rs`) -/

/-- The clauses `packages.rs` `parse_query` pushes for the term `word` at
position `i`.  `regexOk` models whether `RegexQuery::from_pattern` succeeds
on a given pattern string; a failing pattern's clause is silently skipped
(`if let Ok(..)`).  Both regex patterns are built from the whole
`query_string`, not the single term. -/
def packTermClauses (regexOk : String → Bool) (query_string : String)
    (i : Nat) (word : String) : List (Occur × TQuery) :=
  let length_loss := optionDecay i
  [(Occur.should, TQuery.boost (TQuery.term "name" word) 1.4)]
  ++ (if regexOk query_string then
        [(Occur.should,
          TQuery.boost (TQuery.regex "name" query_string) (1.3 * length_loss))]
      else [])
  ++ [(Occur.should,
       TQuery.boost (TQuery.fuzzyPre "name" word 1 true) (1.2 * length_loss))]
  ++ (if regexOk (".*" ++ query_string ++ ".*") then
        [(Occur.should,
          TQuery.boost (TQuery.regex "name" (".*" ++ query_string ++ ".*"))
            (1.1 * length_loss))]
      else [])
  ++ [(Occur.should,
       TQuery.boost (TQuery.term "description" word) length_loss),
      (Occur.should,
       TQuery.boost (TQuery.fuzzyPre "name" word 2 true) (0.9 * length_loss)),
      (Occur.should,
       TQuery.boost (TQuery.fuzzy "description" word 1 true) length_loss)]

/-- Embeds `parse_query` for packages (`src/search/packages.rs` lines 15–93). -/
def packagesParseQuery (regexOk : String → Bool) (query_string : String) :
    TQuery :=
  TQuery.boolean ((strSplit query_string ' ').enum.flatMap fun iw =>
    packTermClauses regexOk query_string iw.1 iw.2)

/-- Embeds `scorer` for packages (`src/search/packages.rs` lines 150–163): the base
score is kept and the tie-break is `1. / attribute_name.len() as f32`. -/
def packagesScorer (d : Doc) (score : Score) : Score × Score :=
  (score, 1 / (strByteLen d.attribute_name : Score))

/-- The document `update_entries` for packages adds for one map entry:
`attribute_name` is the key, `name` the package's display name,
`description` the description or the empty string. -/
def packageDoc (kv : String × NixPackage) : Doc :=
  { attribute_name := kv.1
    name := kv.2.name
    description := kv.2.description.getD "" }

/-- Embeds `update_entries` for packages (`src/search/packages.rs` lines 117–148). -/
def packagesUpdateEntries (s : GenericSearcher NixPackage)
    (entries : List (String × NixPackage)) : GenericSearcher NixPackage :=
  { s with map := entries, docs := entries.map packageDoc }

/-- Embeds `search_entries` instantiated for the packages searcher. -/
def packagesSearchEntries? (regexOk : String → Bool) (bs : BaseScore)
    (s : GenericSearcher NixPackage) (query : String) (nItems page : Nat) :
    Option (List NixPackage) :=
  searchEntriesWith (packagesParseQuery regexOk) packagesScorer bs s query
    nItems page

/-! ## Channel lifecycle (`src/search/mod.rs`) -/

/-- Embeds `ChannelSearcherInner`: the two generic searchers of a channel. -/
structure ChannelSearcherInner where
  options : GenericSearcher NaiveNixosOption
  packages : GenericSearcher NixPackage
  deriving DecidableEq, Repr

/-- Embeds `ChannelSearcher`: optional inner searchers (`None` = inactive), the
branch path and the in-memory flake (branch + revision tag). -/
structure ChannelSearcher where
  inner : Option ChannelSearcherInner
  branch_path : String
  flake : Flake
  deriving DecidableEq, Repr

/-- The per-branch disk cache directory contents relevant to the lifecycle:
`flake_info.json`, `options.json`, `packages.json`. -/
structure Disk where
  flakeInfo : Option Flake
  optionsJson : Option (List (String × NaiveNixosOption))
  packagesJson : Option (List (String × NixPackage))
  deriving DecidableEq, Repr

/-- Outcomes of the two external collaborators consulted by one `update`
tick: the upstream revision fetch and the build
(`nix::build_options_for_fcio_branch`, an external process invocation). -/
structure UpdateEnv where
  fetch : Except String FlakeRev
  build : Except String
    (List (String × NaiveNixosOption) × List (String × NixPackage))

/-- Modelled from the spec: `Flake::get_newest_from_github` is called by
`ChannelSearcher::update` but is absent from the sources; per §6 the
revision source yields `Revision | Error`, and on success the flake's `rev`
is set to the fetched revision.  Its outcome is the `fetch` oracle. -/
def Flake.get_newest_from_github (flake : Flake)
    (fetch : Except String FlakeRev) : Except String Flake :=
  fetch.map fun r => { flake with rev := r }

/-- Embeds `update_file_cache` (`src/search/mod.rs` lines 297–333): runs the
external build; on success writes `options.json`, `packages.json` and
`flake_info.json` (the latter holding the given flake, i.e. the new
revision) and returns the fresh record maps; on build failure the error is
propagated and nothing is written. -/
def update_file_cache
    (build : Except String
      (List (String × NaiveNixosOption) × List (String × NixPackage)))
    (_disk : Disk) (flake : Flake) :
    Except String
      (Disk × (List (String × NaiveNixosOption) × List (String × NixPackage))) :=
  match build with
  | Except.error e => Except.error e
  | Except.ok (options, packages) =>
      Except.ok
        ({ flakeInfo := some flake
           optionsJson := some options
           packagesJson := some packages },
         (options, packages))

/-- Embeds `ChannelSearcherInner::new_with_values` (`src/search/mod.rs` lines
50–67): fresh searchers built from empty indexes then filled with the given
entries. -/
def ChannelSearcherInner.new_with_values
    (options : List (String × NaiveNixosOption))
    (packages : List (String × NixPackage)) : ChannelSearcherInner :=
  { options := optionsUpdateEntries { map := [], docs := [] } options
    packages := packagesUpdateEntries { map := [], docs := [] } packages }

/-- Embeds `ChannelSearcher::active`. -/
def ChannelSearcher.active (c : ChannelSearcher) : Bool :=
  c.inner.isSome

/-- Embeds `ChannelSearcher::search_options`: inactive channels return the empty
list (`unwrap_or_default` on the missing inner). -/
def ChannelSearcher.search_options? (bs : BaseScore) (c : ChannelSearcher)
    (q : String) (nItems page : Nat) : Option (List NaiveNixosOption) :=
  match c.inner with
  | none => some []
  | some i => optionsSearchEntries? bs i.options q nItems page

/-- Embeds `ChannelSearcher::search_packages`. -/
def ChannelSearcher.search_packages? (regexOk : String → Bool)
    (bs : BaseScore) (c : ChannelSearcher) (q : String) (nItems page : Nat) :
    Option (List NixPackage) :=
  match c.inner with
  | none => some []
  | some i => packagesSearchEntries? regexOk bs i.packages q nItems page

/-- Embeds `ChannelSearcher::update` (`src/search/mod.rs` lines 131–175), one
scheduled tick, with the two collaborator outcomes passed as `env`.
Match arms in source order: fetched successfully and active with a
differing revision → rebuild in place (`update_entries` on both searchers,
`self.flake` untouched); fetched successfully and inactive → rebuild from
scratch and adopt the new flake; fetched successfully otherwise →
"already up-to-date" no-op; fetch error → logged no-op. -/
def ChannelSearcher.update (env : UpdateEnv) (c : ChannelSearcher)
    (disk : Disk) : ChannelSearcher × Disk :=
  let active := c.active
  match c.flake.get_newest_from_github env.fetch with
  | Except.ok new_flake =>
    if active && new_flake.rev ≠ c.flake.rev then
      match update_file_cache env.build disk new_flake with
      | Except.ok (disk', (options, packages)) =>
          match c.inner with
          | some i =>
              let i' : ChannelSearcherInner :=
                { options := optionsUpdateEntries i.options options
                  packages := packagesUpdateEntries i.packages packages }
              ({ c with inner := some i' }, disk')
          | none => (c, disk)
      | Except.error _ => (c, disk)
    else if !active then
      match update_file_cache env.build disk new_flake with
      | Except.ok (disk', (options, packages)) =>
          ({ c with
              flake := new_flake
              inner := some
                (ChannelSearcherInner.new_with_values options packages) },
           disk')
      | Except.error _ => (c, disk)
    else (c, disk)
  | Except.error _ => (c, disk)

/-! ## Concrete fixtures used by witnesses and counterexamples -/

/-- A sample option record. -/
def sampleOption (nm : String) : NaiveNixosOption :=
  { name := nm, declarations := [], description := ⟨"doc"⟩, default := ⟨""⟩,
    «example» := ⟨""⟩, option_type := "bool", read_only := false }

/-- A sample package record. -/
def samplePackage (nm : String) : NixPackage :=
  { attribute_name := nm, default_output := "out", description := some "doc",
    long_description := none, license := Plurality.none, name := nm,
    outputs := [], version := none, homepage := Plurality.none }

/-- A sample two-entry option map. -/
def sampleOptionEntries : List (String × NaiveNixosOption) :=
  [("aa", sampleOption "aa"), ("ab", sampleOption "ab")]

/-- A base-relevance oracle matching every document with score 1. -/
def constScore1 : BaseScore := fun _ _ => some 1

/-- A base-relevance oracle matching nothing. -/
def noScore : BaseScore := fun _ _ => none

/-- An update-tick environment in which both collaborators fail. -/
def failEnv : UpdateEnv :=
  { fetch := Except.error "offline", build := Except.error "build failed" }

/-- A sample flake. -/
def sampleFlake : Flake :=
  { owner := "flyingcircusio", name := "fc-nixos", branch := "fc-24.05-dev",
    rev := FlakeRev.specific "oldrev" }

/-- An inactive sample channel. -/
def sampleChannel : ChannelSearcher :=
  { inner := none, branch_path := "/state/fc-24.05-dev", flake := sampleFlake }

/-- An active sample channel. -/
def sampleActiveChannel : ChannelSearcher :=
  { inner := some
      { options := optionsUpdateEntries ⟨[], []⟩ sampleOptionEntries
        packages := packagesUpdateEntries ⟨[], []⟩ [("pkg", samplePackage "pkg")] }
    branch_path := "/state/fc-24.05-dev", flake := sampleFlake }

/-- An empty disk cache. -/
def emptyDisk : Disk :=
  { flakeInfo := none, optionsJson := none, packagesJson := none }

/-- An update-tick environment where both collaborators succeed with a new
revision. -/
def goodEnv : UpdateEnv :=
  { fetch := Except.ok (FlakeRev.specific "newrev")
    build := Except.ok ([("ac", sampleOption "ac")], [("pq", samplePackage "pq")]) }

/-! ## Helper lemmas about the collector and map models -/

theorem mem_insertRanked {x a : (Score × Score) × Doc}
    {l : List ((Score × Score) × Doc)} (h : x ∈ insertRanked a l) :
    x = a ∨ x ∈ l := by
  induction l with
  | nil => simpa [insertRanked] using h
  | cons y ys ih =>
    simp only [insertRanked] at h
    split at h
    · simpa using h
    · rcases List.mem_cons.mp h with rfl | h
      · exact Or.inr (List.mem_cons_self _ _)
      · rcases ih h with rfl | h
        · exact Or.inl rfl
        · exact Or.inr (List.mem_cons_of_mem _ h)

theorem mem_rankDocs {x : (Score × Score) × Doc}
    {l : List ((Score × Score) × Doc)} (h : x ∈ rankDocs l) : x ∈ l := by
  induction l with
  | nil => simp [rankDocs] at h
  | cons y ys ih =>
    simp only [rankDocs] at h
    rcases mem_insertRanked h with rfl | h
    · exact List.mem_cons_self _ _
    · exact List.mem_cons_of_mem _ (ih h)

theorem length_insertRanked (a : (Score × Score) × Doc)
    (l : List ((Score × Score) × Doc)) :
    (insertRanked a l).length = l.length + 1 := by
  induction l with
  | nil => rfl
  | cons y ys ih =>
    simp only [insertRanked]
    split <;> simp [ih]

theorem length_rankDocs (l : List ((Score × Score) × Doc)) :
    (rankDocs l).length = l.length := by
  induction l with
  | nil => rfl
  | cons y ys ih => simp [rankDocs, length_insertRanked, ih]

theorem lookup_isSome_of_mem_keys {Item : Type} {k : String}
    {l : List (String × Item)} (h : k ∈ l.map Prod.fst) :
    ∃ v, l.lookup k = some v := by
  induction l with
  | nil => simp at h
  | cons a l ih =>
    simp only [List.map_cons, List.mem_cons] at h
    by_cases hk : k == a.1
    · exact ⟨a.2, by simp [List.lookup, hk]⟩
    · have h' : k ∈ l.map Prod.fst := by
        rcases h with h'' | h''
        · exact absurd (by simp [h'']) hk
        · exact h''
      obtain ⟨v, hv⟩ := ih h'
      exact ⟨v, by simp [List.lookup, hk, hv]⟩

theorem lookupAll_total {Item : Type} (map : List (String × Item))
    (tds : List ((Score × Score) × Doc))
    (h : ∀ sd ∈ tds, ∃ v, map.lookup sd.2.attribute_name = some v) :
    ∃ r, lookupAll map tds = some r ∧ r.length = tds.length ∧
      ∀ x ∈ r, ∃ sd, sd ∈ tds ∧ map.lookup sd.2.attribute_name = some x := by
  induction tds with
  | nil => exact ⟨[], rfl, rfl, by simp⟩
  | cons sd rest ih =>
    obtain ⟨v, hv⟩ := h sd (List.mem_cons_self _ _)
    obtain ⟨r, hr, hlen, hmem⟩ := ih fun x hx => h x (List.mem_cons_of_mem _ hx)
    refine ⟨v :: r, ?_, by simp [hlen], ?_⟩
    · simp [lookupAll, hv, hr]
    · intro x hx
      rcases List.mem_cons.mp hx with rfl | hx
      · exact ⟨sd, List.mem_cons_self _ _, hv⟩
      · obtain ⟨sd', hsd', hl'⟩ := hmem x hx
        exact ⟨sd', List.mem_cons_of_mem _ hsd', hl'⟩

theorem lookupAll_length {Item : Type} (map : List (String × Item)) :
    ∀ (tds : List ((Score × Score) × Doc)) (r : List Item),
      lookupAll map tds = some r → r.length = tds.length := by
  intro tds
  induction tds with
  | nil =>
    intro r hr
    simp only [lookupAll, Option.some.injEq] at hr
    simp [← hr]
  | cons sd rest ih =>
    intro r hr
    simp only [lookupAll] at hr
    cases hl : map.lookup sd.2.attribute_name with
    | none => simp [hl] at hr
    | some v =>
      rw [hl] at hr
      cases hrest : lookupAll map rest with
      | none => simp [hrest] at hr
      | some r' =>
        rw [hrest] at hr
        simp only [Option.map_some'] at hr
        cases hr
        simp [ih r' hrest]

theorem mem_searchCollect {bs : BaseScore} {tq : TQuery}
    {tweak : Doc → Score → Score × Score} {docs : List Doc}
    {limit offsetN : Nat} {sd : (Score × Score) × Doc}
    (h : sd ∈ searchCollect bs tq tweak docs limit offsetN) : sd.2 ∈ docs := by
  have h1 : sd ∈ docs.filterMap fun d => (bs tq d).map fun sc => (tweak d sc, d) :=
    mem_rankDocs (List.drop_subset _ _ (List.take_subset _ _ h))
  obtain ⟨d, hd, hmap⟩ := List.mem_filterMap.mp h1
  cases hsc : bs tq d with
  | none => simp [hsc] at hmap
  | some sc =>
    rw [hsc] at hmap
    have h2 : (tweak d sc, d) = sd := Option.some.inj hmap
    rw [← h2]
    exact hd

theorem length_searchCollect (bs : BaseScore) (tq : TQuery)
    (tweak : Doc → Score → Score × Score) (docs : List Doc)
    (limit offsetN : Nat) :
    (searchCollect bs tq tweak docs limit offsetN).length =
      min limit ((docs.filterMap fun d =>
        (bs tq d).map fun sc => (tweak d sc, d)).length - offsetN) := by
  simp [searchCollect, length_rankDocs]

theorem searchEntriesWith_consistent {Item : Type} (parseQ : String → TQuery)
    (tweak : Doc → Score → Score × Score) (bs : BaseScore)
    (docOf : String × Item → Doc)
    (hdoc : ∀ kv, (docOf kv).attribute_name = kv.1)
    (entries : List (String × Item)) (q : String) (n p : Nat) :
    ∃ l, searchEntriesWith parseQ tweak bs ⟨entries, entries.map docOf⟩ q n p
        = some l ∧
      ∀ r ∈ l, ∃ k, k ∈ entries.map Prod.fst ∧ entries.lookup k = some r := by
  have hkeys : ∀ sd ∈ searchCollect bs (parseQ q) tweak (entries.map docOf)
      (n + 1) (pageOffset p n), sd.2.attribute_name ∈ entries.map Prod.fst := by
    intro sd hsd
    have hmem : sd.2 ∈ entries.map docOf := mem_searchCollect hsd
    obtain ⟨kv, hkv, hd⟩ := List.mem_map.mp hmem
    rw [← hd, hdoc kv]
    exact List.mem_map.mpr ⟨kv, hkv, rfl⟩
  obtain ⟨r, hr, _, hmem⟩ := lookupAll_total entries _
    (fun sd hsd => lookup_isSome_of_mem_keys (hkeys sd hsd))
  refine ⟨r, hr, ?_⟩
  intro x hx
  obtain ⟨sd, hsd, hl⟩ := hmem x hx
  exact ⟨sd.2.attribute_name, hkeys sd hsd, hl⟩

/-- C1: after a successful `update_entries(entries)` on either generic
searcher, any subsequent `search_entries` succeeds (never hits the
missing-key panic) and every returned record is one of `entries`' values:
the matched document's stored primary key is a key of `entries` and the
record is the one supplied under that key; moreover the identifiers indexed
under the primary-key field are exactly the keys of the in-memory map.
Holds for every base-relevance oracle, query, page size and page. -/
theorem update_entries_search_consistency :
    (∀ (s : GenericSearcher NaiveNixosOption)
       (entries : List (String × NaiveNixosOption)) (bs : BaseScore)
       (q : String) (n p : Nat), (entries.map Prod.fst).Nodup →
       (∀ id, id ∈ (optionsUpdateEntries s entries).docs.map Doc.attribute_name
          ↔ id ∈ (optionsUpdateEntries s entries).map.map Prod.fst) ∧
       ∃ l, optionsSearchEntries? bs (optionsUpdateEntries s entries) q n p
           = some l ∧
         ∀ r ∈ l, ∃ k, k ∈ entries.map Prod.fst ∧ entries.lookup k = some r)
  ∧ (∀ (s : GenericSearcher NixPackage)
       (entries : List (String × NixPackage)) (regexOk : String → Bool)
       (bs : BaseScore) (q : String) (n p : Nat),
       (entries.map Prod.fst).Nodup →
       (∀ id, id ∈ (packagesUpdateEntries s entries).docs.map Doc.attribute_name
          ↔ id ∈ (packagesUpdateEntries s entries).map.map Prod.fst) ∧
       ∃ l, packagesSearchEntries? regexOk bs (packagesUpdateEntries s entries)
           q n p = some l ∧
         ∀ r ∈ l, ∃ k, k ∈ entries.map Prod.fst ∧ entries.lookup k = some r) := by
  constructor
  · intro s entries bs q n p _
    constructor
    · intro id
      simp [optionsUpdateEntries, List.map_map, optionDoc, Function.comp]
    · exact searchEntriesWith_consistent optionsParseQuery optionsScorer bs
        optionDoc (fun kv => rfl) entries q n p
  · intro s entries regexOk bs q n p _
    constructor
    · intro id
      simp [packagesUpdateEntries, List.map_map, packageDoc, Function.comp]
    · exact searchEntriesWith_consistent (packagesParseQuery regexOk)
        packagesScorer bs packageDoc (fun kv => rfl) entries q n p

/-- Witness for C1 at a concrete two-entry update. -/
theorem update_entries_search_consistency_witness :
    (sampleOptionEntries.map Prod.fst).Nodup ∧
    ((∀ id, id ∈ (optionsUpdateEntries ⟨[], []⟩ sampleOptionEntries).docs.map
          Doc.attribute_name
        ↔ id ∈ (optionsUpdateEntries ⟨[], []⟩ sampleOptionEntries).map.map
          Prod.fst) ∧
     ∃ l, optionsSearchEntries? constScore1
         (optionsUpdateEntries ⟨[], []⟩ sampleOptionEntries) "aa" 5 1 = some l ∧
       ∀ r ∈ l, ∃ k, k ∈ sampleOptionEntries.map Prod.fst ∧
         sampleOptionEntries.lookup k = some r) :=
  ⟨by decide,
   update_entries_search_consistency.1 ⟨[], []⟩ sampleOptionEntries constScore1
     "aa" 5 1 (by decide)⟩

/-- C2: if the revision fetch or the build collaborator fails during a
scheduled `update` tick, the channel state and the disk cache are left
completely unchanged: `active`, the in-memory revision tag and both
searchers are as before, so every subsequent search returns exactly the
same results as before the tick. -/
theorem update_failure_preserves_state (env : UpdateEnv) (c : ChannelSearcher)
    (disk : Disk)
    (h : (∃ e, env.fetch = Except.error e) ∨ (∃ e, env.build = Except.error e)) :
    ChannelSearcher.update env c disk = (c, disk) ∧
    (ChannelSearcher.update env c disk).1.active = c.active ∧
    (ChannelSearcher.update env c disk).1.flake.rev = c.flake.rev ∧
    (∀ bs q n p, (ChannelSearcher.update env c disk).1.search_options? bs q n p
        = c.search_options? bs q n p) ∧
    (∀ regexOk bs q n p,
      (ChannelSearcher.update env c disk).1.search_packages? regexOk bs q n p
        = c.search_packages? regexOk bs q n p) := by
  have hmain : ChannelSearcher.update env c disk = (c, disk) := by
    rcases h with ⟨e, he⟩ | ⟨e, he⟩
    · simp [ChannelSearcher.update, he, Flake.get_newest_from_github, Except.map]
    · cases hf : env.fetch with
      | error e' =>
        simp [ChannelSearcher.update, hf, Flake.get_newest_from_github,
          Except.map]
      | ok r =>
        simp [ChannelSearcher.update, hf, he, Flake.get_newest_from_github,
          Except.map, update_file_cache]
  exact ⟨hmain, by rw [hmain], by rw [hmain], fun bs q n p => by rw [hmain],
    fun regexOk bs q n p => by rw [hmain]⟩

/-- Witness for C2: a failing tick on a concrete channel. -/
theorem update_failure_preserves_state_witness :
    ((∃ e, failEnv.fetch = Except.error e) ∨
      (∃ e, failEnv.build = Except.error e)) ∧
    ChannelSearcher.update failEnv sampleChannel emptyDisk
      = (sampleChannel, emptyDisk) :=
  ⟨Or.inl ⟨"offline", rfl⟩,
   (update_failure_preserves_state failEnv sampleChannel emptyDisk
     (Or.inl ⟨"offline", rfl⟩)).1⟩

/-- C10: a successful rebuild tick on an active channel with a newer
upstream revision replaces both searchers' entries and writes the new
revision to the on-disk `flake_info.json`, but leaves the in-memory
`flake` (hence its `rev`) unchanged — so the next tick again observes the
fetched revision as differing from the channel's known revision and takes
the rebuild branch again (yielding the same state: the second tick is a
fixed point). -/
theorem active_update_keeps_rev_stale (env : UpdateEnv) (c : ChannelSearcher)
    (disk : Disk) (i : ChannelSearcherInner) (r : FlakeRev)
    (options : List (String × NaiveNixosOption))
    (packages : List (String × NixPackage))
    (hi : c.inner = some i) (hf : env.fetch = Except.ok r)
    (hr : r ≠ c.flake.rev) (hb : env.build = Except.ok (options, packages)) :
    (ChannelSearcher.update env c disk).1.flake = c.flake ∧
    (ChannelSearcher.update env c disk).1.inner = some
      { options := optionsUpdateEntries i.options options
        packages := packagesUpdateEntries i.packages packages } ∧
    (ChannelSearcher.update env c disk).2.flakeInfo
      = some { c.flake with rev := r } ∧
    (ChannelSearcher.update env c disk).1.active = true ∧
    r ≠ (ChannelSearcher.update env c disk).1.flake.rev ∧
    ChannelSearcher.update env (ChannelSearcher.update env c disk).1
        (ChannelSearcher.update env c disk).2
      = ChannelSearcher.update env c disk := by
  have hact : c.active = true := by simp [ChannelSearcher.active, hi]
  have hstep : ChannelSearcher.update env c disk =
      (let i' : ChannelSearcherInner :=
        { options := optionsUpdateEntries i.options options
          packages := packagesUpdateEntries i.packages packages }
       let d' : Disk :=
        { flakeInfo := some { c.flake with rev := r }
          optionsJson := some options
          packagesJson := some packages }
       ({ c with inner := some i' }, d')) := by
    simp [ChannelSearcher.update, hf, hb, hi, hact,
      Flake.get_newest_from_github, Except.map, update_file_cache, hr]
  refine ⟨by rw [hstep], by rw [hstep], by rw [hstep], ?_, ?_, ?_⟩
  · rw [hstep]; simp [ChannelSearcher.active]
  · rw [hstep]; exact hr
  · rw [hstep]
    simp [ChannelSearcher.update, hf, hb, Flake.get_newest_from_github,
      Except.map, update_file_cache, hr, ChannelSearcher.active,
      optionsUpdateEntries, packagesUpdateEntries]

/-- Witness for C10: a concrete active channel, new revision, successful
build. -/
theorem active_update_keeps_rev_stale_witness :
    (sampleActiveChannel.inner = some
      { options := optionsUpdateEntries ⟨[], []⟩ sampleOptionEntries
        packages := packagesUpdateEntries ⟨[], []⟩ [("pkg", samplePackage "pkg")] }) ∧
    (goodEnv.fetch = Except.ok (FlakeRev.specific "newrev")) ∧
    (FlakeRev.specific "newrev" ≠ sampleActiveChannel.flake.rev) ∧
    (goodEnv.build = Except.ok
      ([("ac", sampleOption "ac")], [("pq", samplePackage "pq")])) ∧
    (ChannelSearcher.update goodEnv sampleActiveChannel emptyDisk).1.flake
      = sampleActiveChannel.flake :=
  ⟨rfl, rfl, by decide, rfl,
   (active_update_keeps_rev_stale goodEnv sampleActiveChannel emptyDisk _
     (FlakeRev.specific "newrev") [("ac", sampleOption "ac")]
     [("pq", samplePackage "pq")] rfl rfl (by decide) rfl).1⟩

/-- C3 (amended): `search_entries` requests the collector with limit
`n_items + 1` at offset `(page.max(1) - 1) * n_items` (that is its
definition) and returns the collector's rows directly, so the caller can
receive up to `n_items + 1` records; the lookahead row is NOT truncated
inside `search_entries` — observing `has_next_page` and truncating is left
to the caller outside this function. -/
theorem search_entries_length_le_lookahead {Item : Type}
    (parseQ : String → TQuery) (tweak : Doc → Score → Score × Score)
    (bs : BaseScore) (s : GenericSearcher Item) (q : String) (n p : Nat)
    (l : List Item)
    (h : searchEntriesWith parseQ tweak bs s q n p = some l) :
    l.length ≤ n + 1 := by
  have hlen := lookupAll_length s.map
    (searchCollect bs (parseQ q) tweak s.docs (n + 1) (pageOffset p n)) l h
  have hc : (searchCollect bs (parseQ q) tweak s.docs (n + 1)
      (pageOffset p n)).length ≤ n + 1 := List.length_take_le _ _
  omega

/-- Witness for the amended C3 on a concrete (empty) searcher. -/
theorem search_entries_length_le_lookahead_witness :
    searchEntriesWith optionsParseQuery optionsScorer noScore
        (⟨[], []⟩ : GenericSearcher NaiveNixosOption) "" 0 0 = some [] ∧
    ([] : List NaiveNixosOption).length ≤ 0 + 1 :=
  ⟨rfl, search_entries_length_le_lookahead optionsParseQuery optionsScorer
    noScore ⟨[], []⟩ "" 0 0 [] rfl⟩

/-- C3 counterexample: with two records matching the query and
`n_items = 1`, `search_entries` returns 2 records — the returned list is
not limited to `n_items` rows; the lookahead row is returned to the
caller untruncated. -/
theorem search_entries_exceeds_page_size :
    ∃ l, optionsSearchEntries? constScore1
        (optionsUpdateEntries ⟨[], []⟩ sampleOptionEntries) "x" 1 1 = some l ∧
      ¬ l.length ≤ 1 := by
  have hkeys : ∀ sd ∈ searchCollect constScore1 (optionsParseQuery "x")
      optionsScorer (sampleOptionEntries.map optionDoc) 2 (pageOffset 1 1),
      sd.2.attribute_name ∈ sampleOptionEntries.map Prod.fst := by
    intro sd hsd
    obtain ⟨kv, hkv, hd⟩ := List.mem_map.mp (mem_searchCollect hsd)
    rw [← hd]
    exact List.mem_map.mpr ⟨kv, hkv, rfl⟩
  obtain ⟨l, hl, hlen, _⟩ := lookupAll_total sampleOptionEntries _
    (fun sd hsd => lookup_isSome_of_mem_keys (hkeys sd hsd))
  refine ⟨l, hl, ?_⟩
  have hclen : (searchCollect constScore1 (optionsParseQuery "x") optionsScorer
      (sampleOptionEntries.map optionDoc) 2 (pageOffset 1 1)).length = 2 := by
    rw [length_searchCollect]
    simp [constScore1, pageOffset, sampleOptionEntries]
  omega

/-- C4: calling `search_entries` with `page = 0` returns exactly the same
result list as with `page = 1`, and the offset computation
`(page.max(1) - 1) * n_items` cannot underflow: its minuend `page.max 1`
is at least 1 for every page value. -/
theorem page_zero_normalized {Item : Type} (parseQ : String → TQuery)
    (tweak : Doc → Score → Score × Score) (bs : BaseScore)
    (s : GenericSearcher Item) (q : String) (n : Nat) :
    searchEntriesWith parseQ tweak bs s q n 0
      = searchEntriesWith parseQ tweak bs s q n 1 ∧
    ∀ page : Nat, 1 ≤ page.max 1 ∧ pageOffset page n = (page.max 1 - 1) * n := by
  constructor
  · simp [searchEntriesWith, pageOffset]
  · intro page
    exact ⟨Nat.le_max_right _ _, rfl⟩

theorem mem_enum_of_getElem? {α : Type} {l : List α} {i : Nat} {w : α}
    (h : l[i]? = some w) : (i, w) ∈ l.enum :=
  List.mk_mem_enum_iff_getElem?.mpr h

theorem optionNameClauses_sub (q : String) (i : Nat) (w : String)
    (h : (strSplit q ' ')[i]? = some w) :
    ∀ c ∈ optionNameClauses i w, c ∈ (optionsParseQuery q).clausesOf := by
  intro c hc
  have henum : (i, w) ∈ (strSplit q ' ').enum := mem_enum_of_getElem? h
  simp only [optionsParseQuery, TQuery.clausesOf]
  exact List.mem_append_left _ (List.mem_flatMap.mpr ⟨(i, w), henum, hc⟩)

/-- C5 (amended): the name-field clause for the term at position `i` —
phrase clause for dotted terms, exact term clause otherwise — carries boost
`1.5 * decay` with `decay = 1 - i/10` exactly as in the source; the decay is
not clamped: it is negative for every `i ≥ 11`, inverting the clause's
contribution sign, while at `i = 10` it is exactly zero (nullifying the
clause), not negative. -/
theorem options_name_clause_decay (q : String) (i : Nat) (w : String)
    (h : (strSplit q ' ')[i]? = some w) :
    (optionDecay i = 1 - (i : Score) / 10) ∧
    ((if w.data.contains '.' then
        (Occur.should,
         TQuery.boost (TQuery.phrase "name" (strSplit w '.'))
           (1.5 * optionDecay i))
      else
        (Occur.should,
         TQuery.boost (TQuery.term "name" w) (1.5 * optionDecay i)))
      ∈ (optionsParseQuery q).clausesOf) ∧
    (11 ≤ i → optionDecay i < 0) ∧
    optionDecay 10 = 0 := by
  refine ⟨rfl, ?_, ?_, by norm_num [optionDecay]⟩
  · apply optionNameClauses_sub q i w h
    by_cases hdot : ('.') ∈ w.data <;> simp [optionNameClauses, hdot]
  · intro hi
    have hcast : (11 : Score) ≤ (i : Score) := by exact_mod_cast hi
    simp only [optionDecay]
    linarith

/-- A query of twelve space-separated terms, exercising positions ≥ 10. -/
def twelveTermQuery : String := "t0 t1 t2 t3 t4 t5 t6 t7 t8 t9 t10 t11"

/-- Witness for C5 at term position 11 of a twelve-term query. -/
theorem options_name_clause_decay_witness :
    (strSplit twelveTermQuery ' ')[11]? = some "t11" ∧
    ((optionDecay 11 = 1 - (11 : Score) / 10) ∧
     ((if "t11".data.contains '.' then
         (Occur.should,
          TQuery.boost (TQuery.phrase "name" (strSplit "t11" '.'))
            (1.5 * optionDecay 11))
       else
         (Occur.should,
          TQuery.boost (TQuery.term "name" "t11") (1.5 * optionDecay 11)))
       ∈ (optionsParseQuery twelveTermQuery).clausesOf) ∧
     (11 ≤ 11 → optionDecay 11 < 0) ∧
     optionDecay 10 = 0) :=
  ⟨by decide, options_name_clause_decay twelveTermQuery 11 "t11" (by decide)⟩

/-- C5 counterexample: at term position 10 the decay `1 - 10/10` is exactly
zero, not negative — the clause's contribution there is nullified rather
than sign-inverted, contradicting "for every i ≥ 10 the decay is
negative". -/
theorem option_decay_not_negative_at_ten :
    optionDecay 10 = 0 ∧ ¬ optionDecay 10 < 0 := by
  norm_num [optionDecay]

/-- C8: every term of the options query, at every position, gets a fuzzy
prefix clause on the name field with edit distance
`clamp(len(term), 2, 4) - 2` — 0 for byte length ≤ 2, 1 for length 3, 2
for length ≥ 4 — and the fixed boost `2.2`, independent of the positional
decay. -/
theorem options_fuzzy_clause_fixed_boost (q : String) (i : Nat) (w : String)
    (h : (strSplit q ' ')[i]? = some w) :
    ((Occur.should, TQuery.boost
        (TQuery.fuzzyPre "name" w (natClamp (strByteLen w) 2 4 - 2) true) 2.2)
      ∈ (optionsParseQuery q).clausesOf) ∧
    (strByteLen w ≤ 2 → natClamp (strByteLen w) 2 4 - 2 = 0) ∧
    (strByteLen w = 3 → natClamp (strByteLen w) 2 4 - 2 = 1) ∧
    (4 ≤ strByteLen w → natClamp (strByteLen w) 2 4 - 2 = 2) := by
  refine ⟨?_, ?_, ?_, ?_⟩
  · apply optionNameClauses_sub q i w h
    by_cases hdot : ('.') ∈ w.data <;> simp [optionNameClauses, hdot]
  · intro h1
    unfold natClamp
    split_ifs <;> omega
  · intro h1
    unfold natClamp
    split_ifs <;> omega
  · intro h1
    unfold natClamp
    split_ifs <;> omega

/-- Witness for C8 at position 1 (term "abc") of a three-term query. -/
theorem options_fuzzy_clause_fixed_boost_witness :
    (strSplit "ab abc abcd" ' ')[1]? = some "abc" ∧
    (((Occur.should, TQuery.boost
        (TQuery.fuzzyPre "name" "abc"
          (natClamp (strByteLen "abc") 2 4 - 2) true) 2.2)
      ∈ (optionsParseQuery "ab abc abcd").clausesOf) ∧
     (strByteLen "abc" ≤ 2 → natClamp (strByteLen "abc") 2 4 - 2 = 0) ∧
     (strByteLen "abc" = 3 → natClamp (strByteLen "abc") 2 4 - 2 = 1) ∧
     (4 ≤ strByteLen "abc" → natClamp (strByteLen "abc") 2 4 - 2 = 2)) :=
  ⟨by decide, options_fuzzy_clause_fixed_boost "ab abc abcd" 1 "abc" (by decide)⟩

/-- C6: the options score tweak multiplies the base score by 1.3 when the
stored identifier starts with "flyingcircus", by 1.05 when it ends with
"enable" and by 0.8 when it contains "roles"; the three factors compose
multiplicatively when several conditions hold (the tie-break component is
the constant 1.0). -/
theorem options_scorer_multiplicative (d : Doc) (s : Score) :
    optionsScorer d s =
      (s * (if strStartsWith d.attribute_name "flyingcircus" then 1.3 else 1)
         * (if strEndsWith d.attribute_name "enable" then 1.05 else 1)
         * (if strContains d.attribute_name "roles" then 0.8 else 1),
       1.0) := by
  unfold optionsScorer
  cases h1 : strStartsWith d.attribute_name "flyingcircus" <;>
    cases h2 : strEndsWith d.attribute_name "enable" <;>
      cases h3 : strContains d.attribute_name "roles" <;>
        simp [h1, h2, h3]

/-- C7: the packages score tweak maps a matched document with base score
`s` and stored identifier `a` to the pair `(s, 1 / len(a))`; under the
collector's lexicographic key comparison, among equal base scores a record
with a shorter (nonempty) identifier ranks strictly above one with a longer
identifier. -/
theorem packages_scorer_tie_break (a b : Doc) (s : Score)
    (h0 : 0 < strByteLen a.attribute_name)
    (hlt : strByteLen a.attribute_name < strByteLen b.attribute_name) :
    packagesScorer a s = (s, 1 / (strByteLen a.attribute_name : Score)) ∧
    keyLt (packagesScorer b s) (packagesScorer a s) = true := by
  refine ⟨rfl, ?_⟩
  have ha : (0 : Score) < (strByteLen a.attribute_name : Score) := by
    exact_mod_cast h0
  have hb : (strByteLen a.attribute_name : Score)
      < (strByteLen b.attribute_name : Score) := by exact_mod_cast hlt
  have hlt2 : 1 / (strByteLen b.attribute_name : Score)
      < 1 / (strByteLen a.attribute_name : Score) :=
    one_div_lt_one_div_of_lt ha hb
  simp only [one_div] at hlt2
  simp [keyLt, packagesScorer, hlt2, lt_irrefl]

/-- Witness for C7: "ab" (2 bytes) against "abcd" (4 bytes). -/
theorem packages_scorer_tie_break_witness :
    0 < strByteLen (Doc.mk "ab" "" "").attribute_name ∧
    strByteLen (Doc.mk "ab" "" "").attribute_name
      < strByteLen (Doc.mk "abcd" "" "").attribute_name ∧
    (packagesScorer (Doc.mk "ab" "" "") 1
        = (1, 1 / (strByteLen (Doc.mk "ab" "" "").attribute_name : Score)) ∧
     keyLt (packagesScorer (Doc.mk "abcd" "" "") 1)
        (packagesScorer (Doc.mk "ab" "" "") 1) = true) :=
  ⟨by decide, by decide,
   packages_scorer_tie_break (Doc.mk "ab" "" "") (Doc.mk "abcd" "" "") 1
     (by decide) (by decide)⟩

theorem packTermClauses_filter_regex (q : String) (i : Nat) (w : String) :
    packTermClauses (fun _ => false) q i w
      = (packTermClauses (fun _ => true) q i w).filter
          (fun c => ! isRegexClause c.2) := by
  simp [packTermClauses, List.filter, isRegexClause]

theorem isRegexClause_boost_term (f t : String) (x : Score) :
    isRegexClause (TQuery.boost (TQuery.term f t) x) = false := rfl

theorem isRegexClause_boost_regex (f p : String) (x : Score) :
    isRegexClause (TQuery.boost (TQuery.regex f p) x) = true := rfl

theorem isRegexClause_boost_fuzzyPre (f t : String) (d : Nat) (tr : Bool)
    (x : Score) :
    isRegexClause (TQuery.boost (TQuery.fuzzyPre f t d tr) x) = false := rfl

theorem isRegexClause_boost_fuzzy (f t : String) (d : Nat) (tr : Bool)
    (x : Score) :
    isRegexClause (TQuery.boost (TQuery.fuzzy f t d tr) x) = false := rfl

/-- C9: query construction never propagates an error: both `parse_query`
functions are total (they always yield a boolean query, for arbitrary
query strings and regardless of which regex patterns fail to compile); a
regex sub-clause whose pattern fails to compile is silently omitted —
construction with all regex patterns failing yields exactly the clauses of
the all-patterns-compile construction minus the regex clauses; and a
failed search degrades to the empty result list rather than surfacing the
error. -/
theorem query_construction_lenient :
    (∀ (Item : Type) (map : List (String × Item)) (e : String),
      processResults map (Except.error e) = some []) ∧
    (∀ q, ∃ cs, optionsParseQuery q = TQuery.boolean cs) ∧
    (∀ (regexOk : String → Bool) q, ∃ cs,
      packagesParseQuery regexOk q = TQuery.boolean cs) ∧
    (∀ q, (packagesParseQuery (fun _ => false) q).clausesOf
      = ((packagesParseQuery (fun _ => true) q).clausesOf).filter
          (fun c => ! isRegexClause c.2)) := by
  refine ⟨fun Item map e => rfl, fun q => ⟨_, rfl⟩, fun regexOk q => ⟨_, rfl⟩, ?_⟩
  intro q
  simp only [packagesParseQuery, TQuery.clausesOf]
  induction (strSplit q ' ').enum with
  | nil => rfl
  | cons iw rest ih =>
    simp only [List.flatMap_cons, List.filter_append]
    rw [ih, packTermClauses_filter_regex]

end FcSearch
